import Mathlib

/-!
Verification of the inventory-report pipeline (`inv_report_app.py`).

The development shallowly embeds the parts of the source the claims are
about: HTML-table extraction (`soup_to_dataframe`), price enrichment
(`get_unit_price`, `add_unit_price_column`), the pandas merge
(`merge_dataframes`), the Excel formatting (`apply_excel_formatting`,
modelled as fill/width functions on the written grid), and the
orchestration in `main` (validation order).  Python strings are modelled
as Lean `String`; Python floats returned by the price API are modelled as
rationals (only their equality with 0 matters to the claims).
-/

set_option maxRecDepth 4000

namespace InvReport

/-! ### String utilities mirroring the Python string operations used -/

/-- `startsWithList l pat`: `l` begins with `pat` (character lists). -/
def startsWithList : List Char → List Char → Bool
  | _, [] => true
  | [], _ :: _ => false
  | a :: l, b :: p => a == b && startsWithList l p

/-- Substring test on character lists (Python `in` on strings). -/
def containsSubList : List Char → List Char → Bool
  | [], pat => pat.isEmpty
  | l@(_ :: rest), pat => startsWithList l pat || containsSubList rest pat

/-- Python `pat in s` for strings. -/
def containsSubstring (s pat : String) : Bool :=
  containsSubList s.toList pat.toList

/-- Fuel-indexed worker for `str.replace(pat, "")`: removes every
non-overlapping occurrence of `pat`, scanning left to right.  The fuel is
always instantiated with the length of the input, which suffices because
every step consumes at least one character; the fuel only makes the
recursion structural. -/
def removeAllFuel (pat : List Char) : Nat → List Char → List Char
  | 0, l => l
  | _ + 1, [] => []
  | f + 1, c :: cs =>
    if startsWithList (c :: cs) pat then
      removeAllFuel pat f (cs.drop (pat.length - 1))
    else
      c :: removeAllFuel pat f cs

/-- The marker text `"ITEM : "` used by `soup_to_dataframe` (line 80). -/
def itemTag : List Char := "ITEM : ".toList

/-- Python `text.replace('ITEM : ', '')` (line 80): removes every
occurrence of the tag, not only a leading one. -/
def pyRemoveItemTag (s : String) : String :=
  String.mk (removeAllFuel itemTag s.toList.length s.toList)

/-- Python `s.split('_')` (list of chars): splits at every underscore,
keeping empty segments. -/
def splitUnderscore : List Char → List (List Char)
  | [] => [[]]
  | c :: cs =>
    if c == '_' then [] :: splitUnderscore cs
    else
      match splitUnderscore cs with
      | h :: t => (c :: h) :: t
      | [] => [[c]]

/-- Python `'_'.join(parts)`. -/
def joinUnderscore : List (List Char) → List Char
  | [] => []
  | [x] => x
  | x :: xs => x ++ '_' :: joinUnderscore xs

/-- Characters before the first occurrence of `" - "`
(Python `x.split(' - ')[0]`, line 169). -/
def takeBeforeDash : List Char → List Char
  | [] => []
  | c :: cs =>
    if startsWithList (c :: cs) " - ".toList then []
    else c :: takeBeforeDash cs

/-! ### HTML table model and `soup_to_dataframe` (lines 67–113)

A row is modelled by its `td` cells; a cell by its `colspan` attribute
(`none` when absent) and its stripped text.  `row.get_text(strip=True)`
is modelled as the concatenation of the cells' stripped texts. -/

structure Cell where
  colspan : Option String
  text : String
deriving Repr, DecidableEq

structure Row where
  cells : List Cell
deriving Repr, DecidableEq

instance : Inhabited Row := ⟨⟨[]⟩⟩

/-- `row.get_text(strip=True)`: concatenation of the cell texts. -/
def rowText (r : Row) : String :=
  String.join (r.cells.map (fun c => c.text))

/-- Python truthiness of a `colspan` attribute value
(`not row.find('td').get('colspan')`, line 83): absent or empty. -/
def colspanFalsy : Option String → Bool
  | none => true
  | some s => s == ""

/-- Line 79: the first `td` exists and declares `colspan == '15'`. -/
def isItemRow (r : Row) : Bool :=
  match r.cells.head? with
  | some c => c.colspan == some "15"
  | none => false

/-- Line 83: the first `td` exists and has no (truthy) `colspan`. -/
def isDataRow (r : Row) : Bool :=
  match r.cells.head? with
  | some c => colspanFalsy c.colspan
  | none => false

/-- One extracted record: the row of `items[k]`, `warehouses[k]`,
`data_rows[k]` built by `soup_to_dataframe`. -/
structure MovementRecord where
  item : String
  warehouse : String
  fields : List String
deriving Repr, DecidableEq

/-- The error raised when a data row is reached with no section marker
seen yet.  In the Python source this surfaces as an unbound
`current_item` (a run-aborting `NameError` at line 87); the spec's
taxonomy names this condition `StructuralError`. -/
inductive StructuralError where
  | dataRowBeforeMarker
deriving Repr, DecidableEq

/-- Item text computed for a section-marker row (line 80):
`row.get_text(strip=True).replace('ITEM : ', '')`. -/
def markerItemText (r : Row) : String :=
  pyRemoveItemTag (rowText r)

/-- The row scan of `soup_to_dataframe` (lines 77–89), carrying the
`current_item` cursor. -/
def extractRows : List Row → Option String → Except StructuralError (List MovementRecord)
  | [], _ => .ok []
  | r :: rs, cur =>
    if isItemRow r then
      extractRows rs (some (markerItemText r))
    else if isDataRow r then
      match cur with
      | none => .error .dataRowBeforeMarker
      | some it =>
        match extractRows rs cur with
        | .error e => .error e
        | .ok recs =>
          .ok ({ item := it,
                 warehouse := (r.cells.head?.map (fun c => c.text)).getD "",
                 fields := r.cells.map (fun c => c.text) } :: recs)
    else extractRows rs cur

/-- Record extraction of `soup_to_dataframe`: scan all rows with no
current item (`current_item` starts unbound). -/
def soupToRecords (rows : List Row) : Except StructuralError (List MovementRecord) :=
  extractRows rows none

/-! ### Spec-side description of the extraction (claims C1, C2) -/

/-- A row the scan treats as a data row (the `elif` at line 83: not a
section marker, and first cell without truthy colspan). -/
def rowIsData (r : Row) : Bool :=
  !isItemRow r && isDataRow r

/-- Indices (in encounter order) of the rows that produce records. -/
def dataIndices : List Row → List Nat
  | [] => []
  | r :: rs =>
    if rowIsData r then 0 :: (dataIndices rs).map (fun n => n + 1)
    else (dataIndices rs).map (fun n => n + 1)

/-- Spec-side cursor: the processed item text governing position `i`,
starting from `cur`. -/
def itemCursor : Option String → List Row → Nat → Option String
  | cur, _, 0 => cur
  | cur, [], _ + 1 => cur
  | cur, r :: rs, i + 1 =>
    itemCursor (if isItemRow r then some (markerItemText r) else cur) rs i

/-- The nearest section-marker row strictly before position `i`:
first marker found scanning backwards. -/
def nearestMarkerBefore (rows : List Row) (i : Nat) : Option Row :=
  (rows.take i).reverse.find? isItemRow

/-- A well-formed table in the sense of claim C1: every data row is
preceded by at least one section-marker row. -/
def WellFormedTable (rows : List Row) : Prop :=
  ∀ i ∈ dataIndices rows, (nearestMarkerBefore rows i).isSome = true

instance (rows : List Row) : Decidable (WellFormedTable rows) := by
  unfold WellFormedTable; infer_instance

/-- The spec's wording for the item of a marker row: its text with the
literal prefix `"ITEM : "` removed (claim C1's phrasing). -/
def stripLeadingItemTag (s : String) : String :=
  if startsWithList s.toList itemTag then String.mk (s.toList.drop 7) else s

/-! ### Price enrichment (`get_unit_price`, lines 116–155, and
`add_unit_price_column`, lines 158–171)

The HTTP exchange is modelled by a lookup function from the sub-minor
code to an optional parsed response: `none` stands for any
`requests.exceptions.RequestException` (network failure, HTTP error
status via `raise_for_status`, or a JSON parse failure, all caught at
line 153); `some` is a successfully parsed JSON body with its `Status`
string and `Data` array.  Prices are modelled as rationals. -/

structure ApiItem where
  itemCode : String
  baseUOMUnitPrice : Rat
deriving Repr, DecidableEq

structure ApiResponse where
  status : String
  dataItems : List ApiItem
deriving Repr, DecidableEq

/-- `'_'.join(item_code.split('_')[:2])` (line 127). -/
def subminorCodeOf (itemCode : String) : String :=
  String.mk (joinUnderscore ((splitUnderscore itemCode.toList).take 2))

/-- `get_unit_price` (lines 116–155): on request failure return `0`;
on success scan `Data` for the exact `ItemCode` and return its
`BaseUOMUnitPrice`; return `0` when the status is not `'Success'` or no
entry matches. -/
def get_unit_price (lookup : String → Option ApiResponse) (item_code : String) : Rat :=
  match lookup (subminorCodeOf item_code) with
  | none => 0
  | some resp =>
    if resp.status == "Success" then
      match resp.dataItems.find? (fun it => it.itemCode == item_code) with
      | some it => it.baseUOMUnitPrice
      | none => 0
    else 0

/-- `x.split(' - ')[0]` (line 169): the item text before the first
`" - "`. -/
def itemCodeOfItem (item : String) : String :=
  String.mk (takeBeforeDash item.toList)

/-- A quantity record augmented with the two columns added by
`add_unit_price_column`. -/
structure EnrichedRecord where
  item : String
  warehouse : String
  fields : List String
  itemCode : String
  unitPrice : Rat
deriving Repr, DecidableEq

/-- Record-level `add_unit_price_column` (lines 158–171): derive the item
code and fetch its unit price, per record, independently. -/
def enrichRecord (lookup : String → Option ApiResponse) (r : MovementRecord) : EnrichedRecord :=
  { item := r.item, warehouse := r.warehouse, fields := r.fields,
    itemCode := itemCodeOfItem r.item,
    unitPrice := get_unit_price lookup (itemCodeOfItem r.item) }

/-- `add_unit_price_column` over the extracted records. -/
def add_unit_price_records (lookup : String → Option ApiResponse)
    (recs : List MovementRecord) : List EnrichedRecord :=
  recs.map (enrichRecord lookup)

/-- The failure modes enumerated by claim C3 for one lookup: request
failure (including network, HTTP status and parse errors), a non-success
status, or the exact item code being absent from a successful response. -/
def lookupFailsB (lookup : String → Option ApiResponse) (code : String) : Bool :=
  match lookup (subminorCodeOf code) with
  | none => true
  | some resp =>
    resp.status != "Success" || resp.dataItems.all (fun it => it.itemCode != code)

/-- A concrete record for enrichment witnesses. -/
def witnessRecord : MovementRecord :=
  { item := "6_2_1 - Widget", warehouse := "WS1", fields := ["WS1", "10"] }

/-! ### DataFrame model

A pandas DataFrame is modelled row-major: an ordered list of column
labels and a list of rows (lists of cell values).  Cell values are
strings (the extraction keeps everything textual) or the rational unit
prices added by enrichment. -/

inductive Val where
  | str : String → Val
  | num : Rat → Val
deriving Repr, DecidableEq

/-- Python exceptions that the DataFrame operations can raise
(uncaught, they abort the run). -/
inductive PyErr where
  | keyError
  | attributeError
  | valueError
deriving Repr, DecidableEq

structure PDF where
  names : List String
  rows : List (List Val)
deriving Repr, DecidableEq

def emptyPDF : PDF := ⟨[], []⟩

instance : Inhabited PDF := ⟨emptyPDF⟩

/-- Index of a column label (first match). -/
def findColIdx (df : PDF) (n : String) : Option Nat :=
  df.names.findIdx? (fun m => m == n)

/-- `df[n]` as a value list; `KeyError` when the column is absent. -/
def getColE (df : PDF) (n : String) : Except PyErr (List Val) :=
  match findColIdx df n with
  | some i => .ok (df.rows.map (fun row => row.getD i (.str "")))
  | none => .error .keyError

/-- `df[n] = vals` / `df.loc[:, n] = vals`: overwrite an existing column
in place, or append a new column at the end. -/
def setCol (df : PDF) (n : String) (vals : List Val) : PDF :=
  match findColIdx df n with
  | some i => ⟨df.names, (df.rows.zip vals).map (fun p => p.1.set i p.2)⟩
  | none => ⟨df.names ++ [n], (df.rows.zip vals).map (fun p => p.1 ++ [p.2])⟩

/-- The 15 column labels for the quantity variant
(`soup_to_dataframe`, lines 98–104). -/
def qtyColumns : List String :=
  ["Warehouse Name", "Opening Stock", "Receipt", "Issue",
   "Transfer Out", "Transfer In", "Adjustment (+)", "Adjustment (-)",
   "Disposal", "Purchase Return", "Sales", "Reserved",
   "Sales Return", "Damaged", "Closing Stock"]

/-- The 15 column labels for the amount variant (lines 91–97). -/
def amountColumns : List String :=
  ["Warehouse Name", "Opening Balance", "Receipt", "Issue",
   "Transfer Out", "Transfer In", "Adjustment (+)", "Adjustment (-)",
   "Disposal", "Purchase Return", "Sales", "Reserved",
   "Sales Return", "Damaged", "Closing Balance"]

/-- The DataFrame assembly of `soup_to_dataframe` (lines 106–111):
`pd.DataFrame(data_rows, columns)` (raising `ValueError` unless every
data row has exactly the 15 values the labels require), then
`df['Item'] = items` (a new trailing column) and
`df['Warehouse Name'] = warehouses` (overwriting column 0). -/
def recordsToDF (cols : List String) (recs : List MovementRecord) : Except PyErr PDF :=
  if recs.all (fun r => r.fields.length == 15) then
    .ok (setCol
          (setCol ⟨cols, recs.map (fun r => r.fields.map Val.str)⟩
            "Item" (recs.map (fun r => Val.str r.item)))
          "Warehouse Name" (recs.map (fun r => Val.str r.warehouse)))
  else .error .valueError

/-- `x.split(' - ')` requires a string; a numeric cell would raise
`AttributeError` in Python. -/
def valAsStr : Val → Except PyErr String
  | .str s => .ok s
  | .num _ => .error .attributeError

/-- The column computations of `add_unit_price_column` (lines 169–170)
on a DataFrame: derive `Item Code` from `Item`, then `Unit Price` from
`Item Code`. -/
def addUnitPriceDF (lookup : String → Option ApiResponse) (df : PDF) :
    Except PyErr PDF :=
  match getColE df "Item" with
  | .error e => .error e
  | .ok itemVals =>
    match itemVals.mapM valAsStr with
    | .error e => .error e
    | .ok strs =>
      match getColE (setCol df "Item Code" ((strs.map itemCodeOfItem).map Val.str))
          "Item Code" with
      | .error e => .error e
      | .ok codeVals =>
        match codeVals.mapM valAsStr with
        | .error e => .error e
        | .ok codeStrs =>
          .ok (setCol (setCol df "Item Code" ((strs.map itemCodeOfItem).map Val.str))
                "Unit Price"
                (codeStrs.map (fun c => Val.num (get_unit_price lookup c))))

/-- The caller's heap of DataFrame objects; references are indices. -/
abbrev Store := List PDF

/-- `add_unit_price_column` (lines 158–171) with its mutation made
explicit: `df = df.copy()` allocates a fresh object at the end of the
store, the two `.loc` assignments mutate only that fresh object, and its
reference is returned. -/
def add_unit_price_column_heap (lookup : String → Option ApiResponse)
    (s : Store) (i : Nat) : Except PyErr (Store × Nat) :=
  match addUnitPriceDF lookup (s.getD i emptyPDF) with
  | .error e => .error e
  | .ok df2 => .ok (s ++ [df2], s.length)

/-- Concrete store used by the C9 witness. -/
def witnessStore : Store := [⟨["Item"], [[Val.str "6_2_1 - Widget"]]⟩]

/-- The store after the C9 witness call: the original object plus the
mutated copy. -/
def witnessStoreResult : Store :=
  [⟨["Item"], [[Val.str "6_2_1 - Widget"]]⟩,
   ⟨["Item", "Item Code", "Unit Price"],
    [[Val.str "6_2_1 - Widget", Val.str "6_2_1", Val.num 0]]⟩]

/-! ### The merge (`merge_dataframes`, lines 174–203)

`pd.merge(qty_df, amount_df, on=['Item', 'Warehouse Name'],
suffixes=('_qty', '_amount'))` is an inner join: for each left row in
left order, each right row with equal key, in right order (pandas
preserves the order of the left keys for an inner merge).  It is modelled
twice: at record level (the join content, claims C4/C10) and at column
level with the suffix, rename and selection plumbing (claim C5). -/

/-- Join-key equality for an enriched quantity record and an amount
record: `Item` and `Warehouse Name` both equal. -/
def keyMatch (q : EnrichedRecord) (a : MovementRecord) : Bool :=
  q.item == a.item && q.warehouse == a.warehouse

/-- The `(item, warehouse)` key of an enriched quantity record. -/
def recKey (q : EnrichedRecord) : String × String := (q.item, q.warehouse)

/-- The `(item, warehouse)` key of an amount record. -/
def amtKey (a : MovementRecord) : String × String := (a.item, a.warehouse)

/-- Record-level inner join: every matching left/right pair, left-major
order. -/
def mergeRecords (qty : List EnrichedRecord) (amt : List MovementRecord) :
    List (EnrichedRecord × MovementRecord) :=
  qty.flatMap (fun q => (amt.filter (fun a => keyMatch q a)).map (fun a => (q, a)))

/-- The 12 output values of one unified report row, in the fixed final
column order: `Item` and the quantity-side values at positions 1
(`Opening Stock`), 5 (`Transfer In`), 10 (`Sales`), 14
(`Closing Stock`) of the 15 data fields, the amount-side values at the
same positions (renamed `Opening Balance Amount`, `Total Purchase`,
`Total Sales`, `Closing Balance Amount`), and the quantity side's unit
price at all three `Unit Price` positions. -/
def unifiedRowVals (p : EnrichedRecord × MovementRecord) : List Val :=
  [Val.str p.1.item,
   Val.str (p.1.fields.getD 1 ""), Val.num p.1.unitPrice, Val.str (p.2.fields.getD 1 ""),
   Val.str (p.1.fields.getD 5 ""), Val.num p.1.unitPrice, Val.str (p.2.fields.getD 5 ""),
   Val.str (p.1.fields.getD 10 ""), Val.num p.1.unitPrice, Val.str (p.2.fields.getD 10 ""),
   Val.str (p.1.fields.getD 14 ""), Val.str (p.2.fields.getD 14 "")]

/-- The merge keys (line 176). -/
def mergeKeys : List String := ["Item", "Warehouse Name"]

/-- Pandas suffix rule for a left column label: keys keep their name;
a non-key label also present on the right gains `'_qty'`. -/
def suffixLeft (rnames : List String) (n : String) : String :=
  if mergeKeys.contains n then n
  else if rnames.contains n then n ++ "_qty" else n

/-- Pandas suffix rule for a kept right column label: a non-key label
also present on the left gains `'_amount'`. -/
def suffixRight (lnames : List String) (n : String) : String :=
  if lnames.contains n then n ++ "_amount" else n

/-- Column-level `pd.merge` on `['Item', 'Warehouse Name']` with
suffixes `('_qty', '_amount')`: output columns are the left columns
(keys unchanged) followed by the right non-key columns; output rows are
all key-matching left/right row combinations, left-major, with the right
key positions dropped. -/
def mergeColsE (l r : PDF) : Except PyErr PDF :=
  match findColIdx l "Item", findColIdx l "Warehouse Name",
        findColIdx r "Item", findColIdx r "Warehouse Name" with
  | some li, some lw, some ri, some rw =>
    .ok { names := l.names.map (suffixLeft r.names)
            ++ (((List.range r.names.length).filter (fun k => k ≠ ri && k ≠ rw)).map
                  (fun k => suffixRight l.names (r.names.getD k ""))),
          rows := l.rows.flatMap (fun lrow =>
            (r.rows.filter (fun rrow =>
                lrow.getD li (.str "") == rrow.getD ri (.str "")
                  && lrow.getD lw (.str "") == rrow.getD rw (.str ""))).map
              (fun rrow => lrow
                ++ ((List.range r.names.length).filter (fun k => k ≠ ri && k ≠ rw)).map
                     (fun k => rrow.getD k (.str "")))) }
  | _, _, _, _ => .error .keyError

/-- The rename map of lines 179–189 (`df.rename` ignores absent keys
silently). -/
def finalRename : List (String × String) :=
  [("Opening Stock_qty", "Opening Stock"),
   ("Unit Price", "Unit Price"),
   ("Opening Balance", "Opening Balance Amount"),
   ("Transfer In_qty", "Purchase Stock"),
   ("Transfer In_amount", "Total Purchase"),
   ("Sales_qty", "Sales Stock"),
   ("Sales_amount", "Total Sales"),
   ("Closing Stock_qty", "Closing Stock"),
   ("Closing Balance", "Closing Balance Amount")]

/-- `df.rename(columns=m)`: map each label through the dictionary,
leaving labels without an entry unchanged. -/
def renameCols (df : PDF) (m : List (String × String)) : PDF :=
  { df with names := df.names.map (fun n =>
      ((m.find? (fun p => p.1 == n)).map (fun p => p.2)).getD n) }

/-- The fixed final column selection of lines 194–201 (`Unit Price`
appears three times). -/
def finalSelection : List String :=
  ["Item", "Opening Stock", "Unit Price", "Opening Balance Amount",
   "Purchase Stock", "Unit Price", "Total Purchase",
   "Sales Stock", "Unit Price", "Total Sales",
   "Closing Stock", "Closing Balance Amount"]

/-- `df[[sel]]`: project onto the selected labels (first match per
label; a missing label raises `KeyError`).  A label listed twice yields
the column twice. -/
def selectColsE (df : PDF) (sel : List String) : Except PyErr PDF :=
  match sel.mapM (fun n => findColIdx df n) with
  | some idxs => .ok ⟨sel, df.rows.map (fun row => idxs.map (fun i => row.getD i (.str "")))⟩
  | none => .error .keyError

/-- The cell row an enriched quantity record occupies in the enriched
quantity DataFrame: 15 textual fields, then `Item`, `Item Code`,
`Unit Price`. -/
def enrichedRowVals (e : EnrichedRecord) : List Val :=
  e.fields.map Val.str ++ [Val.str e.item, Val.str e.itemCode, Val.num e.unitPrice]

/-- The cell row an amount record occupies in the amount DataFrame:
15 textual fields, then `Item`. -/
def amountRowVals (a : MovementRecord) : List Val :=
  a.fields.map Val.str ++ [Val.str a.item]

/-- The enriched quantity DataFrame's column labels. -/
def enrichedQtyNames : List String :=
  qtyColumns ++ ["Item", "Item Code", "Unit Price"]

/-- The amount DataFrame's column labels. -/
def amountNames : List String := amountColumns ++ ["Item"]

/-- The right-side columns kept by the merge (the amount data fields at
positions 1–14, keys dropped). -/
def rightKeepVals (a : MovementRecord) : List Val :=
  (List.range' 1 14).map (fun k => Val.str (a.fields.getD k ""))

/-! ### Excel formatting (`apply_excel_formatting`, lines 206–303)

The DataFrame is written starting at row 2 (`start=2`, line 212): row 1
carries the merged band labels, row 2 the field headers, and the data
rows follow from row 3.  Cells are 1-based `(row, column)`. -/

inductive Band where
  | opening
  | purchase
  | sales
  | closing
deriving Repr, DecidableEq

/-- The four fill colors (lines 230–233). -/
def bandColor : Band → String
  | .opening => "ADD8E6"
  | .purchase => "F4CCCC"
  | .sales => "D9EAD3"
  | .closing => "EAD1DC"

/-- `ws.max_row`: header row 2 plus one row per DataFrame row (row 1 is
also populated by the band labels). -/
def wsMaxRow (df : PDF) : Nat := df.rows.length + 2

/-- The fill finally applied to cell `(r, c)`: the four band-header
fills at B1/E1/H1/K1 (lines 238–245) and the four column-range loops
over rows 2..max_row (lines 255–269).  The assigned regions are pairwise
disjoint, so the sequential assignments amount to this function. -/
def wsFillBand (df : PDF) (r c : Nat) : Option Band :=
  if 2 ≤ r ∧ r ≤ wsMaxRow df then
    if 2 ≤ c ∧ c ≤ 4 then some .opening
    else if 5 ≤ c ∧ c ≤ 7 then some .purchase
    else if 8 ≤ c ∧ c ≤ 10 then some .sales
    else if 11 ≤ c ∧ c ≤ 12 then some .closing
    else none
  else if r = 1 then
    if c = 2 then some .opening
    else if c = 5 then some .purchase
    else if c = 8 then some .sales
    else if c = 11 then some .closing
    else none
  else none

/-- The background color of cell `(r, c)`, when one is assigned. -/
def wsFillColor (df : PDF) (r c : Nat) : Option String :=
  (wsFillBand df r c).map bandColor

/-- The band label anchored at row 1, column `c` (lines 217–227). -/
def bandLabelAt (c : Nat) : Option String :=
  if c = 2 then some "OPENING"
  else if c = 5 then some "PURCHASE"
  else if c = 8 then some "SALES"
  else if c = 11 then some "CLOSING STOCK"
  else none

/-- Whether `(r, c)` is a `MergedCell` (a non-anchor cell of one of the
four row-1 merges `B1:D1`, `E1:G1`, `H1:J1`, `K1:L1`), skipped by the
width loop (line 288). -/
def isMergedCell (r c : Nat) : Bool :=
  r == 1 && ((3 ≤ c && c ≤ 4) || (6 ≤ c && c ≤ 7) || (9 ≤ c && c ≤ 10) || c == 12)

/-- The value held by cell `(r, c)`: a band label (or nothing) in row 1,
the column label in row 2, and the DataFrame cell from row 3 on. -/
def wsValueAt (df : PDF) (r c : Nat) : Option Val :=
  if c = 0 ∨ r = 0 then none
  else if r = 1 then (bandLabelAt c).map Val.str
  else if r = 2 then
    if c - 1 < df.names.length then some (Val.str (df.names.getD (c - 1) ""))
    else none
  else if r - 3 < df.rows.length then
    if c - 1 < (df.rows.getD (r - 3) []).length then
      some ((df.rows.getD (r - 3) []).getD (c - 1) (Val.str ""))
    else none
  else none

/-- `len(str(cell.value))`, with the rendering length of the numeric
unit prices kept abstract; an unassigned cell holds Python `None` and
`str(None)` has four characters. -/
def strLenOf (len : Rat → Nat) : Option Val → Nat
  | none => 4
  | some (.str s) => s.length
  | some (.num q) => len q

/-- The rendered length of the row-1 cell of column `c`: the band label
length at an anchor, four (`str(None)`) elsewhere. -/
def bandCellLen (c : Nat) : Nat :=
  match bandLabelAt c with
  | none => 4
  | some s => s.length

/-- Maximum of a list of naturals (`max_length` accumulation, starting
at 0). -/
def maxList (l : List Nat) : Nat := l.foldl Nat.max 0

/-- The width assigned to column `c` (lines 282–300): the maximum
rendered length over the column's non-merged cells in rows 1..max_row,
plus the fixed padding 2. -/
def colWidth (len : Rat → Nat) (df : PDF) (c : Nat) : Nat :=
  maxList (((List.range' 1 (wsMaxRow df)).filter (fun r => !isMergedCell r c)).map
      (fun r => strLenOf len (wsValueAt df r c))) + 2

/-- A one-data-row final report grid (C6/C8 witnesses). -/
def c6DF : PDF :=
  ⟨finalSelection,
   [[Val.str "6_2_1 - Widget", Val.str "10", Val.num 0, Val.str "100",
     Val.str "2", Val.num 0, Val.str "20", Val.str "3", Val.num 0,
     Val.str "30", Val.str "9", Val.str "90"]]⟩

/-- Concrete quantity record with the full 15-field layout (C5
witness). -/
def c5QtyRec : MovementRecord :=
  { item := "6_2_1 - Widget", warehouse := "WS1 - WS Shuwaikh",
    fields := ["WS1 - WS Shuwaikh", "10", "0", "0", "0", "2", "0", "0", "0",
               "0", "3", "0", "0", "0", "9"] }

/-- Concrete amount record with the full 15-field layout (C5 witness). -/
def c5AmtRec : MovementRecord :=
  { item := "6_2_1 - Widget", warehouse := "WS1 - WS Shuwaikh",
    fields := ["WS1 - WS Shuwaikh", "100", "0", "0", "0", "20", "0", "0", "0",
               "0", "30", "0", "0", "0", "90"] }

/-- Enriched quantity records with unique keys (C4/C10 witnesses). -/
def wQty : List EnrichedRecord :=
  [{ item := "I1", warehouse := "W1", fields := ["W1"], itemCode := "I1", unitPrice := 5 },
   { item := "I2", warehouse := "W1", fields := ["W1"], itemCode := "I2", unitPrice := 7 }]

/-- Amount records with unique keys, in a different key order and with
one unmatched key (C4/C10 witnesses). -/
def wAmt : List MovementRecord :=
  [{ item := "I2", warehouse := "W1", fields := ["W1"] },
   { item := "I1", warehouse := "W1", fields := ["W1"] },
   { item := "I3", warehouse := "W1", fields := ["W1"] }]

/-- `merge_dataframes` (lines 174–203): merge, rename, reorder/select. -/
def merge_dataframes_df (qdf adf : PDF) : Except PyErr PDF :=
  match mergeColsE qdf adf with
  | .error e => .error e
  | .ok m => selectColsE (renameCols m finalRename) finalSelection

/-! ### Input documents, validation, and the run (`validate_file_content`
lines 306–309, `main` lines 311–396)

A parsed document is modelled by its stripped text fragments (whose
concatenation is `soup.get_text(strip=True)`) and the rows of its
`TableResult` table. -/

structure HtmlDoc where
  textFragments : List String
  tableRows : List Row
deriving Repr, DecidableEq

/-- `soup.get_text(strip=True)`. -/
def docText (d : HtmlDoc) : String := String.join d.textFragments

/-- `validate_file_content` (lines 306–309): every expected keyword is a
substring of the document text. -/
def validate_file_content (d : HtmlDoc) (keywords : List String) : Bool :=
  keywords.all (fun k => containsSubstring (docText d) k)

/-- How a run can fail: the two user-facing validation errors of lines
344–350, or an uncaught exception from a later stage. -/
inductive RunError where
  | qtyValidation
  | amtValidation
  | structural (e : StructuralError)
  | py (e : PyErr)
deriving Repr, DecidableEq

/-- The warehouse filter of lines 363–364
(`df['Warehouse Name'].str.contains('WS1 - WS Shuwaikh', na=False)`). -/
def filterWarehouseDF (df : PDF) : Except PyErr PDF :=
  match findColIdx df "Warehouse Name" with
  | some i => .ok { df with rows := df.rows.filter (fun row =>
      match row.getD i (Val.str "") with
      | .str s => containsSubstring s "WS1 - WS Shuwaikh"
      | .num _ => false) }
  | none => .error .keyError

/-- The report-generation run of `main` (lines 319–385): validate the
quantity document, then the amount document, and only then parse the
table rows into records, build and filter the DataFrames, enrich, and
merge. -/
def runPipeline (lookup : String → Option ApiResponse) (qdoc adoc : HtmlDoc) :
    Except RunError PDF :=
  if !validate_file_content qdoc ["Opening Stock"] then .error .qtyValidation
  else if !validate_file_content adoc ["Opening balance"] then .error .amtValidation
  else
    match soupToRecords qdoc.tableRows with
    | .error e => .error (.structural e)
    | .ok qrecs =>
      match soupToRecords adoc.tableRows with
      | .error e => .error (.structural e)
      | .ok arecs =>
        match recordsToDF qtyColumns qrecs with
        | .error e => .error (.py e)
        | .ok qdf0 =>
          match recordsToDF amountColumns arecs with
          | .error e => .error (.py e)
          | .ok adf0 =>
            match filterWarehouseDF qdf0, filterWarehouseDF adf0 with
            | .error e, _ => .error (.py e)
            | .ok _, .error e => .error (.py e)
            | .ok qdf1, .ok adf1 =>
              match addUnitPriceDF lookup qdf1 with
              | .error e => .error (.py e)
              | .ok qdf2 =>
                match merge_dataframes_df qdf2 adf1 with
                | .error e => .error (.py e)
                | .ok final => .ok final

/-- Quantity document lacking the required marker (C7 witness). -/
def badQtyDoc : HtmlDoc := ⟨["no marker here"], []⟩

/-- Amount document containing its marker (C7 witness). -/
def goodAmtDoc : HtmlDoc := ⟨["Opening balance"], []⟩


/-- A section-marker row whose text contains `"ITEM : "` also beyond its
leading position. -/
def cexMarkerRow : Row := ⟨[⟨some "15", "ITEM : A ITEM : B"⟩]⟩

/-- A plain data row with a single cell. -/
def cexDataRow : Row := ⟨[⟨none, "W1"⟩]⟩

/-- A well-formed two-row table distinguishing replace-all from
strip-leading item processing. -/
def cexTable : List Row := [cexMarkerRow, cexDataRow]

/-- A table whose first row is a data row (no marker ever seen). -/
def orphanTable : List Row := [⟨[⟨none, "W1"⟩]⟩]

/-- A small well-formed table used as a witness input: one marker, two
data rows. -/
def wfTable : List Row :=
  [⟨[⟨some "15", "ITEM : 6_2_1 - Widget"⟩]⟩,
   ⟨[⟨none, "WS1"⟩, ⟨none, "10"⟩]⟩,
   ⟨[⟨none, "WS2"⟩, ⟨none, "20"⟩]⟩]

/-! ### Extraction lemmas -/

theorem itemCursor_zero (cur : Option String) (rows : List Row) :
    itemCursor cur rows 0 = cur := by
  cases rows <;> rfl

theorem itemCursor_cons (cur : Option String) (r : Row) (rs : List Row) (i : Nat) :
    itemCursor cur (r :: rs) (i + 1)
      = itemCursor (if isItemRow r then some (markerItemText r) else cur) rs i := rfl

theorem itemCursor_eq_marker (rows : List Row) : ∀ (i : Nat) (cur : Option String),
    itemCursor cur rows i
      = ((nearestMarkerBefore rows i).map (fun m => some (markerItemText m))).getD cur := by
  induction rows with
  | nil =>
    intro i cur
    cases i <;> simp [itemCursor, nearestMarkerBefore]
  | cons r rs ih =>
    intro i cur
    cases i with
    | zero => simp [itemCursor_zero, nearestMarkerBefore]
    | succ j =>
      rw [itemCursor_cons, ih]
      unfold nearestMarkerBefore
      rw [List.take_succ_cons, List.reverse_cons, List.find?_append]
      by_cases h : isItemRow r
      · cases hfind : (rs.take j).reverse.find? isItemRow <;>
          simp [h, hfind, Option.or]
      · cases hfind : (rs.take j).reverse.find? isItemRow <;>
          simp [h, hfind, Option.or]

theorem dataIndices_cons (r : Row) (rs : List Row) :
    dataIndices (r :: rs)
      = if rowIsData r then 0 :: (dataIndices rs).map (fun n => n + 1)
        else (dataIndices rs).map (fun n => n + 1) := rfl

/-- Main extraction lemma: whenever every data row has a governing item
(either a preceding marker or the initial cursor), the scan succeeds and
produces exactly one record per data row, in encounter order, each
carrying the cursor item, the first cell text as warehouse, and the cell
texts as fields. -/
theorem extractRows_ok (rows : List Row) : ∀ (cur : Option String),
    (∀ i ∈ dataIndices rows, (itemCursor cur rows i).isSome = true) →
    ∃ recs, extractRows rows cur = .ok recs ∧
      recs.length = (dataIndices rows).length ∧
      ∀ j (hj : j < recs.length) (hj2 : j < (dataIndices rows).length),
        recs[j].item = (itemCursor cur rows (dataIndices rows)[j]).getD "" ∧
        recs[j].warehouse
          = (((rows.getD (dataIndices rows)[j] default).cells.head?).map (fun c => c.text)).getD "" ∧
        recs[j].fields = (rows.getD (dataIndices rows)[j] default).cells.map (fun c => c.text) := by
  induction rows with
  | nil =>
    intro cur _
    exact ⟨[], rfl, rfl, fun j hj _ => absurd hj (by simp)⟩
  | cons r rs ih =>
    intro cur h
    by_cases hitem : isItemRow r
    · have hnd : rowIsData r = false := by simp [rowIsData, hitem]
      have htrans : ∀ i ∈ dataIndices rs,
          (itemCursor (some (markerItemText r)) rs i).isSome = true := by
        intro i hi
        have := h (i + 1) (by simpa [dataIndices_cons, hnd] using hi)
        rwa [itemCursor_cons, if_pos hitem] at this
      obtain ⟨recs, hok, hlen, hpt⟩ := ih (some (markerItemText r)) htrans
      refine ⟨recs, ?_, ?_, ?_⟩
      · simp [extractRows, hitem, hok]
      · simp [dataIndices_cons, hnd, hlen]
      · intro j hj hj2
        have hj2' : j < (dataIndices rs).length := by
          simpa [dataIndices_cons, hnd] using hj2
        have hidx : (dataIndices (r :: rs))[j] = (dataIndices rs)[j] + 1 := by
          simp [dataIndices_cons, hnd]
        rw [hidx, itemCursor_cons, if_pos hitem]
        simpa using hpt j hj hj2'
    · by_cases hdata : isDataRow r
      · have hnd : rowIsData r = true := by simp [rowIsData, hitem, hdata]
        have h0 := h 0 (by simp [dataIndices_cons, hnd])
        rw [itemCursor_zero] at h0
        obtain ⟨it, hcur⟩ := Option.isSome_iff_exists.mp h0
        subst hcur
        have htrans : ∀ i ∈ dataIndices rs,
            (itemCursor (some it) rs i).isSome = true := by
          intro i hi
          have := h (i + 1) (by simpa [dataIndices_cons, hnd] using hi)
          rwa [itemCursor_cons, if_neg hitem] at this
        obtain ⟨recs, hok, hlen, hpt⟩ := ih (some it) htrans
        refine ⟨{ item := it,
                  warehouse := (r.cells.head?.map (fun c => c.text)).getD "",
                  fields := r.cells.map (fun c => c.text) } :: recs, ?_, ?_, ?_⟩
        · simp [extractRows, hitem, hdata, hok]
        · simp [dataIndices_cons, hnd, hlen]
        · intro j hj hj2
          cases j with
          | zero =>
            refine ⟨?_, ?_, ?_⟩ <;> simp [dataIndices_cons, hnd, itemCursor_zero]
          | succ j =>
            have hj' : j < recs.length := by simpa using hj
            have hj2' : j < (dataIndices rs).length := by
              simpa [dataIndices_cons, hnd] using hj2
            have hidx : (dataIndices (r :: rs))[j + 1] = (dataIndices rs)[j] + 1 := by
              simp [dataIndices_cons, hnd]
            rw [hidx]
            simp only [List.getElem_cons_succ]
            rw [itemCursor_cons, if_neg hitem]
            simpa using hpt j hj' hj2'
      · have hnd : rowIsData r = false := by simp [rowIsData, hitem, hdata]
        have htrans : ∀ i ∈ dataIndices rs,
            (itemCursor cur rs i).isSome = true := by
          intro i hi
          have := h (i + 1) (by simpa [dataIndices_cons, hnd] using hi)
          rwa [itemCursor_cons, if_neg hitem] at this
        obtain ⟨recs, hok, hlen, hpt⟩ := ih cur htrans
        refine ⟨recs, ?_, ?_, ?_⟩
        · simp [extractRows, hitem, hdata, hok]
        · simp [dataIndices_cons, hnd, hlen]
        · intro j hj hj2
          have hj2' : j < (dataIndices rs).length := by
            simpa [dataIndices_cons, hnd] using hj2
          have hidx : (dataIndices (r :: rs))[j] = (dataIndices rs)[j] + 1 := by
            simp [dataIndices_cons, hnd]
          rw [hidx, itemCursor_cons, if_neg hitem]
          simpa using hpt j hj hj2'

/-- When some data row lacks a governing item, the scan aborts with the
structural error (Python reaches the unbound `current_item`). -/
theorem extractRows_error (rows : List Row) : ∀ (cur : Option String),
    ¬ (∀ i ∈ dataIndices rows, (itemCursor cur rows i).isSome = true) →
    extractRows rows cur = .error .dataRowBeforeMarker := by
  induction rows with
  | nil =>
    intro cur h
    exact absurd (by simp [dataIndices]) h
  | cons r rs ih =>
    intro cur h
    by_cases hitem : isItemRow r
    · have hnd : rowIsData r = false := by simp [rowIsData, hitem]
      have h2 : ¬ (∀ i ∈ dataIndices rs,
          (itemCursor (some (markerItemText r)) rs i).isSome = true) := by
        intro hall
        apply h
        intro i hi
        rw [dataIndices_cons, hnd] at hi
        simp only [Bool.false_eq_true, if_false, ite_false, List.mem_map] at hi
        obtain ⟨i0, hi0, rfl⟩ := hi
        rw [itemCursor_cons, if_pos hitem]
        exact hall i0 hi0
      simpa [extractRows, hitem] using ih _ h2
    · by_cases hdata : isDataRow r
      · have hnd : rowIsData r = true := by simp [rowIsData, hitem, hdata]
        cases cur with
        | none => simp [extractRows, hitem, hdata]
        | some it =>
          have h2 : ¬ (∀ i ∈ dataIndices rs,
              (itemCursor (some it) rs i).isSome = true) := by
            intro hall
            apply h
            intro i hi
            rw [dataIndices_cons, hnd] at hi
            simp only [if_true, List.mem_cons, List.mem_map] at hi
            rcases hi with rfl | ⟨i0, hi0, rfl⟩
            · rw [itemCursor_zero]; rfl
            · rw [itemCursor_cons, if_neg hitem]
              exact hall i0 hi0
          simp [extractRows, hitem, hdata, ih _ h2]
      · have hnd : rowIsData r = false := by simp [rowIsData, hitem, hdata]
        have h2 : ¬ (∀ i ∈ dataIndices rs,
            (itemCursor cur rs i).isSome = true) := by
          intro hall
          apply h
          intro i hi
          rw [dataIndices_cons, hnd] at hi
          simp only [Bool.false_eq_true, if_false, ite_false, List.mem_map] at hi
          obtain ⟨i0, hi0, rfl⟩ := hi
          rw [itemCursor_cons, if_neg hitem]
          exact hall i0 hi0
        simpa [extractRows, hitem, hdata] using ih _ h2

end InvReport

namespace InvReport

/-- C1 (amended): for every well-formed input table, `soup_to_dataframe`
yields exactly one record per data row, in encounter order; each record's
`item` equals the text of the nearest preceding section-marker row with
every occurrence of the literal substring `"ITEM : "` removed (the code
applies `str.replace`, i.e. replace-all, not removal of a leading prefix
only); the warehouse is the first cell's text and the fields are the cell
texts in order. -/
theorem extract_one_record_per_data_row (rows : List Row) (h : WellFormedTable rows) :
    ∃ recs, soupToRecords rows = .ok recs ∧
      recs.length = (dataIndices rows).length ∧
      ∀ j (hj : j < recs.length) (hj2 : j < (dataIndices rows).length),
        recs[j].item
          = ((nearestMarkerBefore rows (dataIndices rows)[j]).map markerItemText).getD "" ∧
        recs[j].warehouse
          = (((rows.getD (dataIndices rows)[j] default).cells.head?).map (fun c => c.text)).getD "" ∧
        recs[j].fields = (rows.getD (dataIndices rows)[j] default).cells.map (fun c => c.text) := by
  have hcur : ∀ i ∈ dataIndices rows, (itemCursor none rows i).isSome = true := by
    intro i hi
    rw [itemCursor_eq_marker]
    obtain ⟨m, hm⟩ := Option.isSome_iff_exists.mp (h i hi)
    simp [hm]
  obtain ⟨recs, hok, hlen, hpt⟩ := extractRows_ok rows none hcur
  refine ⟨recs, hok, hlen, ?_⟩
  intro j hj hj2
  obtain ⟨h1, h2, h3⟩ := hpt j hj hj2
  refine ⟨?_, h2, h3⟩
  rw [h1, itemCursor_eq_marker]
  have hmem : (dataIndices rows)[j] ∈ dataIndices rows := List.getElem_mem hj2
  obtain ⟨m, hm⟩ := Option.isSome_iff_exists.mp (h _ hmem)
  simp [hm]

/-- C1 witness: the theorem applied to a concrete well-formed table. -/
theorem extract_one_record_per_data_row_witness :
    WellFormedTable wfTable ∧
    (∃ recs, soupToRecords wfTable = .ok recs ∧
      recs.length = (dataIndices wfTable).length ∧
      ∀ j (hj : j < recs.length) (hj2 : j < (dataIndices wfTable).length),
        recs[j].item
          = ((nearestMarkerBefore wfTable (dataIndices wfTable)[j]).map markerItemText).getD "" ∧
        recs[j].warehouse
          = (((wfTable.getD (dataIndices wfTable)[j] default).cells.head?).map (fun c => c.text)).getD "" ∧
        recs[j].fields = (wfTable.getD (dataIndices wfTable)[j] default).cells.map (fun c => c.text)) :=
  ⟨by decide, extract_one_record_per_data_row wfTable (by decide)⟩

/-- C1 counterexample: on this well-formed table the extracted item is
`"A B"` (all occurrences of `"ITEM : "` removed), while the claim's
prefix-stripping reading would give `"A ITEM : B"`. -/
theorem extract_item_strip_leading_cex :
    WellFormedTable cexTable ∧
    dataIndices cexTable = [1] ∧
    soupToRecords cexTable = .ok [{ item := "A B", warehouse := "W1", fields := ["W1"] }] ∧
    nearestMarkerBefore cexTable 1 = some cexMarkerRow ∧
    stripLeadingItemTag (rowText cexMarkerRow) = "A ITEM : B" ∧
    ("A B" : String) ≠ "A ITEM : B" := by
  refine ⟨by decide, by decide, ?_, by decide, by decide, by decide⟩
  rfl

/-- C2: a data row appearing before any section-marker row aborts the
extraction with the structural error rather than producing records with a
blank item. -/
theorem extract_structural_error_on_orphan (rows : List Row) (h : ¬ WellFormedTable rows) :
    soupToRecords rows = .error .dataRowBeforeMarker := by
  apply extractRows_error
  intro hall
  apply h
  intro i hi
  have hsome := hall i hi
  rw [itemCursor_eq_marker] at hsome
  cases hm : nearestMarkerBefore rows i with
  | none => rw [hm] at hsome; simp at hsome
  | some m => rfl

/-- C2 witness: a table whose single row is a data row. -/
theorem extract_structural_error_on_orphan_witness :
    ¬ WellFormedTable orphanTable ∧
    soupToRecords orphanTable = .error .dataRowBeforeMarker :=
  ⟨by decide, extract_structural_error_on_orphan orphanTable (by decide)⟩

/-- C3: enrichment is total (never raises): it preserves the number and
contents of the records, adds the derived item code, and resolves the
unit price to exactly `0` for every record whose lookup fails (request
failure, non-success status, or exact code absent from a successful
response); each record is handled independently, so per-record failures
never abort the batch. -/
theorem enrich_resolves_failures_to_zero (lookup : String → Option ApiResponse)
    (recs : List MovementRecord) :
    (add_unit_price_records lookup recs).length = recs.length ∧
    ∀ j (hj : j < (add_unit_price_records lookup recs).length) (hj2 : j < recs.length),
      (add_unit_price_records lookup recs)[j].item = recs[j].item ∧
      (add_unit_price_records lookup recs)[j].warehouse = recs[j].warehouse ∧
      (add_unit_price_records lookup recs)[j].fields = recs[j].fields ∧
      (add_unit_price_records lookup recs)[j].itemCode = itemCodeOfItem recs[j].item ∧
      (lookupFailsB lookup (itemCodeOfItem recs[j].item) = true →
        (add_unit_price_records lookup recs)[j].unitPrice = 0) := by
  refine ⟨by simp [add_unit_price_records], ?_⟩
  intro j hj hj2
  simp only [add_unit_price_records, List.getElem_map]
  refine ⟨rfl, rfl, rfl, rfl, ?_⟩
  intro hfail
  show get_unit_price lookup (itemCodeOfItem recs[j].item) = 0
  unfold lookupFailsB at hfail
  unfold get_unit_price
  cases hl : lookup (subminorCodeOf (itemCodeOfItem recs[j].item)) with
  | none => rfl
  | some resp =>
    rw [hl] at hfail
    by_cases hs : resp.status == "Success"
    · have hall : resp.dataItems.all
          (fun it => it.itemCode != itemCodeOfItem recs[j].item) = true := by
        rcases Bool.or_eq_true_iff.mp hfail with h1 | h2
        · exact absurd (beq_iff_eq.mp hs) (bne_iff_ne.mp h1)
        · exact h2
      have hnone : resp.dataItems.find?
          (fun it => it.itemCode == itemCodeOfItem recs[j].item) = none := by
        rw [List.find?_eq_none]
        intro it hit
        have := List.all_eq_true.mp hall it hit
        simpa using this
      simp [hs, hnone]
    · simp [hs]

/-- C3 witness: with a lookup that always fails, the single enriched
record's unit price is `0` and the batch is intact. -/
theorem enrich_resolves_failures_to_zero_witness :
    lookupFailsB (fun _ => none) (itemCodeOfItem witnessRecord.item) = true ∧
    (add_unit_price_records (fun _ => none) [witnessRecord]).length = 1 ∧
    ((add_unit_price_records (fun _ => none) [witnessRecord]).map
        (fun e => e.unitPrice)).head? = some 0 := by
  have h := enrich_resolves_failures_to_zero (fun _ => none) [witnessRecord]
  have h0 := (h.2 0 (by simp [add_unit_price_records]) (by simp)).2.2.2.2 rfl
  refine ⟨rfl, h.1, ?_⟩
  simp only [add_unit_price_records, List.map_cons, List.map_nil, List.head?_cons]
  exact congrArg some (by simpa [add_unit_price_records] using h0)

/-! ### DataFrame operation lemmas (claim C9) -/

theorem findIdx?_not_mem (n : String) : ∀ (ns : List String), n ∉ ns →
    ns.findIdx? (fun m => m == n) = none := by
  intro ns
  induction ns with
  | nil => intro _; rfl
  | cons m ms ih =>
    intro h
    rw [List.findIdx?_cons]
    have hmn : (m == n) = false := by
      refine beq_eq_false_iff_ne.mpr ?_
      intro he
      exact h (he ▸ List.mem_cons_self m ms)
    rw [hmn, if_neg (by simp), List.findIdx?_succ,
      ih (fun hm => h (List.mem_cons_of_mem m hm))]
    rfl

theorem findIdx?_append_self (n : String) : ∀ (ns : List String), n ∉ ns →
    (ns ++ [n]).findIdx? (fun m => m == n) = some ns.length := by
  intro ns
  induction ns with
  | nil => simp [List.findIdx?_cons]
  | cons m ms ih =>
    intro h
    rw [List.cons_append, List.findIdx?_cons]
    have hmn : (m == n) = false := by
      refine beq_eq_false_iff_ne.mpr ?_
      intro he
      exact h (he ▸ List.mem_cons_self m ms)
    rw [hmn, if_neg (by simp), List.findIdx?_succ,
      ih (fun hm => h (List.mem_cons_of_mem m hm))]
    rfl

theorem findColIdx_not_mem (df : PDF) (n : String) (h : n ∉ df.names) :
    findColIdx df n = none :=
  findIdx?_not_mem n df.names h

/-- Appending a genuinely new column. -/
theorem setCol_new (df : PDF) (n : String) (vals : List Val) (h : n ∉ df.names) :
    setCol df n vals
      = ⟨df.names ++ [n], (df.rows.zip vals).map (fun p => p.1 ++ [p.2])⟩ := by
  unfold setCol
  rw [findColIdx_not_mem df n h]

theorem addUnitPriceDF_names (lookup : String → Option ApiResponse) (df df2 : PDF)
    (h1 : "Item Code" ∉ df.names) (h2 : "Unit Price" ∉ df.names)
    (h : addUnitPriceDF lookup df = .ok df2) :
    df2.names = df.names ++ ["Item Code", "Unit Price"] := by
  unfold addUnitPriceDF at h
  split at h
  · exact absurd h (by simp)
  · split at h
    · exact absurd h (by simp)
    · split at h
      · exact absurd h (by simp)
      · split at h
        · exact absurd h (by simp)
        · have hdf2 := (Except.ok.injEq _ _).mp h
          rw [← hdf2]
          rw [setCol_new df "Item Code" _ h1]
          have hup : "Unit Price" ∉ df.names ++ ["Item Code"] := by
            intro hm
            rcases List.mem_append.mp hm with hm1 | hm2
            · exact h2 hm1
            · simp at hm2
          rw [setCol_new _ "Unit Price" _ hup]
          simp

theorem set_append_last {α : Type} (l : List α) (a b : α) :
    (l ++ [a]).set l.length b = l ++ [b] := by
  induction l with
  | nil => rfl
  | cons x xs ih => simp [List.set, ih]

/-- C9: `add_unit_price_column` operates on a copy: after the call the
original (and every other pre-existing object in the store) is
unchanged, and only the freshly returned object carries the added
`Item Code` and `Unit Price` columns. -/
theorem add_unit_price_mutates_only_copy (lookup : String → Option ApiResponse)
    (s : Store) (i : Nat) (s2 : Store) (j : Nat)
    (hi : i < s.length)
    (hc1 : "Item Code" ∉ (s.getD i emptyPDF).names)
    (hc2 : "Unit Price" ∉ (s.getD i emptyPDF).names)
    (h : add_unit_price_column_heap lookup s i = .ok (s2, j)) :
    j = s.length ∧ i ≠ j ∧
    (∀ k, k < s.length → s2.getD k emptyPDF = s.getD k emptyPDF) ∧
    (s2.getD j emptyPDF).names
      = (s.getD i emptyPDF).names ++ ["Item Code", "Unit Price"] := by
  unfold add_unit_price_column_heap at h
  split at h
  · exact absurd h (by simp)
  · rename_i df2 hdf2
    have hinj := (Except.ok.injEq _ _).mp h
    have hs2 : s2 = s ++ [df2] := (congrArg Prod.fst hinj).symm
    have hj : j = s.length := (congrArg Prod.snd hinj).symm
    subst hs2 hj
    refine ⟨rfl, by omega, ?_, ?_⟩
    · intro k hk
      exact List.getD_append _ _ _ _ hk
    · rw [List.getD_append_right _ _ _ _ (le_refl _)]
      simp only [Nat.sub_self, List.getD_cons_zero]
      exact addUnitPriceDF_names lookup _ df2 hc1 hc2 hdf2

/-- C9 witness: concrete one-object store, failing lookup. -/
theorem add_unit_price_mutates_only_copy_witness :
    add_unit_price_column_heap (fun _ => none) witnessStore 0
      = .ok (witnessStoreResult, 1) ∧
    (1 = witnessStore.length ∧ 0 ≠ 1 ∧
     (∀ k, k < witnessStore.length →
        witnessStoreResult.getD k emptyPDF = witnessStore.getD k emptyPDF) ∧
     (witnessStoreResult.getD 1 emptyPDF).names
        = (witnessStore.getD 0 emptyPDF).names ++ ["Item Code", "Unit Price"]) :=
  ⟨rfl,
   add_unit_price_mutates_only_copy (fun _ => none) witnessStore 0 witnessStoreResult 1
     (by decide) (by decide) (by decide) rfl⟩

/-! ### Inner-join lemmas (claims C4, C10) -/

theorem keyMatch_eq_true_iff (q : EnrichedRecord) (a : MovementRecord) :
    keyMatch q a = true ↔ recKey q = amtKey a := by
  simp [keyMatch, recKey, amtKey, Prod.ext_iff]

/-- With unique keys on the right, the per-key filter is the singleton
(or empty) result of `find?`. -/
theorem filter_keyMatch_nodup (q : EnrichedRecord) : ∀ (amt : List MovementRecord),
    (amt.map amtKey).Nodup →
    amt.filter (fun a => keyMatch q a)
      = match amt.find? (fun a => keyMatch q a) with
        | some a => [a]
        | none => [] := by
  intro amt
  induction amt with
  | nil => intro _; rfl
  | cons a rest ih =>
    intro h
    rw [List.map_cons, List.nodup_cons] at h
    obtain ⟨h1, h2⟩ := h
    by_cases hm : keyMatch q a = true
    · rw [List.filter_cons_of_pos hm, List.find?_cons_of_pos _ hm]
      have hrest : rest.filter (fun a2 => keyMatch q a2) = [] := by
        rw [List.filter_eq_nil_iff]
        intro a2 ha2 hka2
        apply h1
        rw [← (keyMatch_eq_true_iff q a).mp hm, (keyMatch_eq_true_iff q a2).mp hka2]
        exact List.mem_map_of_mem amtKey ha2
      rw [hrest]
    · rw [List.filter_cons_of_neg (by simpa using hm),
        List.find?_cons_of_neg _ (by simpa using hm)]
      exact ih h2

/-- With unique keys on the right, a left record contributes one output
row when its key occurs on the right and none otherwise. -/
theorem filter_keyMatch_length (q : EnrichedRecord) (amt : List MovementRecord)
    (ha : (amt.map amtKey).Nodup) :
    (amt.filter (fun a => keyMatch q a)).length
      = if recKey q ∈ amt.map amtKey then 1 else 0 := by
  rw [filter_keyMatch_nodup q amt ha]
  cases hf : amt.find? (fun a => keyMatch q a) with
  | some a =>
    have hmem : recKey q ∈ amt.map amtKey := by
      rw [(keyMatch_eq_true_iff q a).mp (List.find?_some hf)]
      exact List.mem_map_of_mem amtKey (List.mem_of_find?_eq_some hf)
    simp [hmem]
  | none =>
    have hnone : recKey q ∉ amt.map amtKey := by
      intro hmem
      obtain ⟨a, ha2, hk⟩ := List.mem_map.mp hmem
      have := List.find?_eq_none.mp hf a ha2
      exact this ((keyMatch_eq_true_iff q a).mpr hk.symm)
    simp [hnone]

/-- C4: the merge is an inner join on exact equality of
`(item, warehouse)`.  With unique keys on both sides the output row
count equals the number of left records whose key also occurs on the
right (unmatched rows on either side contribute nothing, and nothing is
raised); in general (duplicate keys on either side), exactly one output
row is emitted for every key-matching left/right pair — the cartesian
expansion for that key. -/
theorem merge_inner_join_counts (qty : List EnrichedRecord) (amt : List MovementRecord)
    (hq : (qty.map recKey).Nodup) (ha : (amt.map amtKey).Nodup) :
    (mergeRecords qty amt).length
      = (qty.filter (fun q => decide (recKey q ∈ amt.map amtKey))).length ∧
    ∀ (qty2 : List EnrichedRecord) (amt2 : List MovementRecord),
      (mergeRecords qty2 amt2).length
        = ((qty2.flatMap (fun q => amt2.map (fun a => (q, a)))).filter
             (fun p => keyMatch p.1 p.2)).length := by
  constructor
  · clear hq
    induction qty with
    | nil => rfl
    | cons q qty ih =>
      simp only [mergeRecords] at ih ⊢
      rw [List.flatMap_cons, List.length_append, List.length_map,
        filter_keyMatch_length q amt ha, ih]
      by_cases hmem : recKey q ∈ amt.map amtKey
      · rw [if_pos hmem, List.filter_cons_of_pos (by simpa using hmem), List.length_cons]
        omega
      · rw [if_neg hmem, List.filter_cons_of_neg (by simpa using hmem)]
        omega
  · intro qty2 amt2
    induction qty2 with
    | nil => rfl
    | cons q qty2 ih =>
      rw [mergeRecords, List.flatMap_cons, List.flatMap_cons, List.filter_append,
        List.length_append, List.length_append, List.length_map]
      congr 1
      · rw [List.filter_map, List.length_map]
        exact congrArg List.length (List.filter_congr (fun a _ => rfl))

/-- C10: with unique keys on both sides, the merge emits exactly the
left records in left order, each paired with its unique right match
(absent keys dropped): the output order is the order of the enriched
quantity input. -/
theorem merge_preserves_left_order (qty : List EnrichedRecord) (amt : List MovementRecord)
    (hq : (qty.map recKey).Nodup) (ha : (amt.map amtKey).Nodup) :
    mergeRecords qty amt
      = qty.filterMap (fun q =>
          (amt.find? (fun a => keyMatch q a)).map (fun a => (q, a))) := by
  clear hq
  induction qty with
  | nil => rfl
  | cons q qty ih =>
    simp only [mergeRecords] at ih ⊢
    rw [List.flatMap_cons, List.filterMap_cons, ih, filter_keyMatch_nodup q amt ha]
    cases amt.find? (fun a => keyMatch q a) <;> simp


/-- C4 witness: concrete unique-key inputs (one key unmatched). -/
theorem merge_inner_join_counts_witness :
    (wQty.map recKey).Nodup ∧ (wAmt.map amtKey).Nodup ∧
    ((mergeRecords wQty wAmt).length
        = (wQty.filter (fun q => decide (recKey q ∈ wAmt.map amtKey))).length ∧
     ∀ (qty2 : List EnrichedRecord) (amt2 : List MovementRecord),
       (mergeRecords qty2 amt2).length
         = ((qty2.flatMap (fun q => amt2.map (fun a => (q, a)))).filter
              (fun p => keyMatch p.1 p.2)).length) :=
  ⟨by decide, by decide, merge_inner_join_counts wQty wAmt (by decide) (by decide)⟩

/-- C10 witness: the same concrete inputs, establishing left-order
output. -/
theorem merge_preserves_left_order_witness :
    (wQty.map recKey).Nodup ∧ (wAmt.map amtKey).Nodup ∧
    mergeRecords wQty wAmt
      = wQty.filterMap (fun q =>
          (wAmt.find? (fun a => keyMatch q a)).map (fun a => (q, a))) :=
  ⟨by decide, by decide, merge_preserves_left_order wQty wAmt (by decide) (by decide)⟩

/-! ### Column-level merge lemmas (claim C5) -/

theorem getD_map_str (l : List String) (k : Nat) (hk : k < l.length) :
    (l.map Val.str).getD k (Val.str "") = Val.str (l.getD k "") := by
  rw [List.getD_eq_getElem?_getD, List.getD_eq_getElem?_getD, List.getElem?_map,
    List.getElem?_eq_getElem hk]
  rfl

theorem getD_strs_append (fields : List String) (rest : List Val) (k : Nat)
    (hk : k < fields.length) :
    ((fields.map Val.str) ++ rest).getD k (Val.str "") = Val.str (fields.getD k "") := by
  rw [List.getD_append _ _ _ _ (by simpa using hk)]
  exact getD_map_str fields k hk

theorem getD_append_offset (l1 l2 : List Val) (j : Nat) (d : Val) :
    (l1 ++ l2).getD (l1.length + j) d = l2.getD j d := by
  rw [List.getD_append_right _ _ _ _ (by omega)]
  congr 1
  omega

theorem mapM_valAsStr {α : Type} (f : α → String) (l : List α) :
    (l.map (fun x => Val.str (f x))).mapM valAsStr = Except.ok (l.map f) := by
  induction l with
  | nil => rfl
  | cons x xs ih =>
    rw [List.map_cons, List.mapM_cons, ih]
    rfl

theorem val_str_beq (x y : String) : (Val.str x == Val.str y) = (x == y) := by
  by_cases h : x = y
  · simp [h]
  · have h1 : (Val.str x == Val.str y) = false :=
      beq_eq_false_iff_ne.mpr (fun he => h (Val.str.inj he))
    have h2 : (x == y) = false := beq_eq_false_iff_ne.mpr h
    rw [h1, h2]

/-- `recordsToDF` in canonical form: the `Item` column is appended and
the `Warehouse Name` overwrite is the identity because every record's
warehouse is its first field. -/
theorem recordsToDF_canonical (cols : List String) (recs : List MovementRecord)
    (hni : ("Item" : String) ∉ cols)
    (hfind : ((cols ++ ["Item"]).findIdx? (fun m => m == "Warehouse Name")) = some 0)
    (h15 : ∀ r ∈ recs, r.fields.length = 15)
    (hw : ∀ r ∈ recs, r.warehouse = r.fields.getD 0 "") :
    recordsToDF cols recs
      = .ok ⟨cols ++ ["Item"],
             recs.map (fun r => r.fields.map Val.str ++ [Val.str r.item])⟩ := by
  unfold recordsToDF
  rw [if_pos (by
    rw [List.all_eq_true]
    intro r hr
    simpa using h15 r hr)]
  rw [setCol_new ⟨cols, recs.map (fun r => r.fields.map Val.str)⟩ "Item" _ hni]
  have hset : ∀ (rows1 : List (List Val)) (vals : List Val),
      setCol ⟨cols ++ ["Item"], rows1⟩ "Warehouse Name" vals
        = ⟨cols ++ ["Item"], (rows1.zip vals).map (fun p => p.1.set 0 p.2)⟩ := by
    intro rows1 vals
    unfold setCol findColIdx
    rw [hfind]
  rw [hset]
  rw [List.zip_map', List.map_map, List.zip_map', List.map_map]
  refine congrArg Except.ok (congrArg (PDF.mk (cols ++ ["Item"])) ?_)
  rw [List.map_eq_map_iff]
  intro r hr
  have h1 := h15 r hr
  have h2 := hw r hr
  cases hfld : r.fields with
  | nil => rw [hfld] at h1; simp at h1
  | cons f0 fs =>
    rw [hfld] at h2
    simp only [Function.comp_apply, hfld, List.map_cons, List.cons_append,
      List.set_cons_zero]
    rw [h2]
    simp

/-- Reading a column of a DataFrame whose rows are a `map`, given the
column index and the per-row cell value. -/
theorem getColE_maprows {α : Type} (ns : List String) (f : α → List Val)
    (l : List α) (n : String) (k : Nat)
    (hfind : ns.findIdx? (fun m => m == n) = some k)
    (g : α → Val) (hval : ∀ x ∈ l, (f x).getD k (Val.str "") = g x) :
    getColE ⟨ns, l.map f⟩ n = .ok (l.map g) := by
  unfold getColE findColIdx
  rw [hfind]
  show Except.ok ((l.map f).map (fun row => row.getD k (Val.str ""))) = _
  rw [List.map_map]
  refine congrArg Except.ok ?_
  rw [List.map_eq_map_iff]
  intro x hx
  exact hval x hx

/-- Appending a new column to a DataFrame whose rows are a `map`. -/
theorem setCol_new_maprows {α : Type} (ns : List String) (f : α → List Val)
    (g : α → Val) (l : List α) (n : String) (h : n ∉ ns) :
    setCol ⟨ns, l.map f⟩ n (l.map g)
      = ⟨ns ++ [n], l.map (fun x => f x ++ [g x])⟩ := by
  rw [setCol_new _ _ _ h]
  refine congrArg (PDF.mk _) ?_
  rw [List.zip_map', List.map_map]
  rfl

/-- `addUnitPriceDF` in canonical form on the extracted quantity
DataFrame. -/
theorem addUnitPriceDF_canonical (lookup : String → Option ApiResponse)
    (recs : List MovementRecord)
    (h15 : ∀ r ∈ recs, r.fields.length = 15) :
    addUnitPriceDF lookup
        ⟨qtyColumns ++ ["Item"],
         recs.map (fun r => r.fields.map Val.str ++ [Val.str r.item])⟩
      = .ok ⟨enrichedQtyNames,
             (add_unit_price_records lookup recs).map enrichedRowVals⟩ := by
  unfold addUnitPriceDF
  rw [getColE_maprows (qtyColumns ++ ["Item"]) _ recs "Item" 15 rfl
        (fun r => Val.str r.item) (fun r hr => by
          have h1 := h15 r hr
          rw [show (15 : Nat) = (r.fields.map Val.str).length + 0 from by simp [h1],
            getD_append_offset]
          rfl)]
  simp only []
  rw [mapM_valAsStr (fun r => r.item) recs]
  simp only []
  rw [List.map_map, List.map_map]
  rw [setCol_new_maprows (qtyColumns ++ ["Item"]) _ _ recs "Item Code"
        (by decide)]
  rw [getColE_maprows ((qtyColumns ++ ["Item"]) ++ ["Item Code"]) _ recs
        "Item Code" 16 rfl
        (fun r => Val.str (itemCodeOfItem r.item)) (fun r hr => by
          have h1 := h15 r hr
          simp only [Function.comp_apply]
          rw [show (16 : Nat)
              = (r.fields.map Val.str ++ [Val.str r.item]).length + 0 from by
                simp [h1],
            getD_append_offset]
          rfl)]
  simp only []
  rw [mapM_valAsStr (fun r => itemCodeOfItem r.item) recs]
  simp only []
  rw [List.map_map]
  rw [setCol_new_maprows ((qtyColumns ++ ["Item"]) ++ ["Item Code"]) _ _ recs
        "Unit Price" (by decide)]
  refine congrArg Except.ok ?_
  refine congrArg₂ PDF.mk rfl ?_
  rw [add_unit_price_records, List.map_map, List.map_eq_map_iff]
  intro r hr
  simp [enrichedRowVals, enrichRecord]

theorem exists_fields15 (l : List String) (h : l.length = 15) :
    ∃ a0 a1 a2 a3 a4 a5 a6 a7 a8 a9 a10 a11 a12 a13 a14,
      l = [a0, a1, a2, a3, a4, a5, a6, a7, a8, a9, a10, a11, a12, a13, a14] := by
  cases l with | nil => simp at h | cons a0 l =>
  cases l with | nil => simp at h | cons a1 l =>
  cases l with | nil => simp at h | cons a2 l =>
  cases l with | nil => simp at h | cons a3 l =>
  cases l with | nil => simp at h | cons a4 l =>
  cases l with | nil => simp at h | cons a5 l =>
  cases l with | nil => simp at h | cons a6 l =>
  cases l with | nil => simp at h | cons a7 l =>
  cases l with | nil => simp at h | cons a8 l =>
  cases l with | nil => simp at h | cons a9 l =>
  cases l with | nil => simp at h | cons a10 l =>
  cases l with | nil => simp at h | cons a11 l =>
  cases l with | nil => simp at h | cons a12 l =>
  cases l with | nil => simp at h | cons a13 l =>
  cases l with | nil => simp at h | cons a14 l =>
  cases l with
  | nil =>
    exact ⟨a0, a1, a2, a3, a4, a5, a6, a7, a8, a9, a10, a11, a12, a13, a14, rfl⟩
  | cons a15 l => simp at h

theorem flatMap_congr {α β : Type} (l : List α) (f g : α → List β)
    (h : ∀ x ∈ l, f x = g x) : l.flatMap f = l.flatMap g := by
  induction l with
  | nil => rfl
  | cons x xs ih =>
    rw [List.flatMap_cons, List.flatMap_cons, h x (List.mem_cons_self x xs),
      ih (fun y hy => h y (List.mem_cons_of_mem x hy))]

theorem mergeColsE_of_idx (l r : PDF) (li lw ri rw : Nat)
    (h1 : findColIdx l "Item" = some li)
    (h2 : findColIdx l "Warehouse Name" = some lw)
    (h3 : findColIdx r "Item" = some ri)
    (h4 : findColIdx r "Warehouse Name" = some rw) :
    mergeColsE l r
      = .ok { names := l.names.map (suffixLeft r.names)
                ++ (((List.range r.names.length).filter
                      (fun k => k ≠ ri && k ≠ rw)).map
                    (fun k => suffixRight l.names (r.names.getD k ""))),
              rows := l.rows.flatMap (fun lrow =>
                (r.rows.filter (fun rrow =>
                    lrow.getD li (.str "") == rrow.getD ri (.str "")
                      && lrow.getD lw (.str "") == rrow.getD rw (.str ""))).map
                  (fun rrow => lrow
                    ++ ((List.range r.names.length).filter
                          (fun k => k ≠ ri && k ≠ rw)).map
                        (fun k => rrow.getD k (.str "")))) } := by
  unfold mergeColsE
  rw [h1, h2, h3, h4]

/-- The column-level merge of the enriched quantity DataFrame with the
amount DataFrame computes exactly the record-level inner join, each
output row being the enriched quantity row followed by the kept amount
data fields. -/
theorem mergeColsE_canonical (e : List EnrichedRecord) (arecs : List MovementRecord)
    (he15 : ∀ x ∈ e, x.fields.length = 15)
    (hew : ∀ x ∈ e, x.warehouse = x.fields.getD 0 "")
    (ha15 : ∀ a ∈ arecs, a.fields.length = 15)
    (haw : ∀ a ∈ arecs, a.warehouse = a.fields.getD 0 "") :
    mergeColsE ⟨enrichedQtyNames, e.map enrichedRowVals⟩
               ⟨amountNames, arecs.map amountRowVals⟩
      = .ok ⟨enrichedQtyNames.map (suffixLeft amountNames)
               ++ (((List.range amountNames.length).filter
                      (fun k => k ≠ 15 && k ≠ 0)).map
                    (fun k => suffixRight enrichedQtyNames (amountNames.getD k ""))),
             (mergeRecords e arecs).map
               (fun p => enrichedRowVals p.1 ++ rightKeepVals p.2)⟩ := by
  rw [mergeColsE_of_idx ⟨enrichedQtyNames, e.map enrichedRowVals⟩
        ⟨amountNames, arecs.map amountRowVals⟩ 15 0 15 0 rfl rfl rfl rfl]
  refine congrArg Except.ok (congrArg₂ PDF.mk rfl ?_)
  show (e.map enrichedRowVals).flatMap _ = _
  rw [List.flatMap_map, mergeRecords, List.map_flatMap]
  refine flatMap_congr e _ _ ?_
  intro q hq
  obtain ⟨f0, f1, f2, f3, f4, f5, f6, f7, f8, f9, f10, f11, f12, f13, f14, hf⟩ :=
    exists_fields15 q.fields (he15 q hq)
  have hqw := hew q hq
  rw [hf] at hqw
  -- first align the filter predicates, then the per-pair row builders
  rw [List.map_map]
  have hfilter : (arecs.map amountRowVals).filter (fun rrow =>
      (enrichedRowVals q).getD 15 (.str "") == rrow.getD 15 (.str "")
        && (enrichedRowVals q).getD 0 (.str "") == rrow.getD 0 (.str ""))
      = (arecs.filter (fun a => keyMatch q a)).map amountRowVals := by
    rw [List.filter_map]
    refine congrArg (List.map amountRowVals) ?_
    refine List.filter_congr ?_
    intro a ha
    obtain ⟨g0, g1, g2, g3, g4, g5, g6, g7, g8, g9, g10, g11, g12, g13, g14, hg⟩ :=
      exists_fields15 a.fields (ha15 a ha)
    have haw2 := haw a ha
    rw [hg] at haw2
    simp only [Function.comp_apply]
    rw [show (enrichedRowVals q).getD 15 (.str "") = Val.str q.item from by
        simp only [enrichedRowVals, hf]; rfl,
      show (enrichedRowVals q).getD 0 (.str "") = Val.str f0 from by
        simp only [enrichedRowVals, hf]; rfl,
      show (amountRowVals a).getD 15 (.str "") = Val.str a.item from by
        simp only [amountRowVals, hg]; rfl,
      show (amountRowVals a).getD 0 (.str "") = Val.str g0 from by
        simp only [amountRowVals, hg]; rfl,
      val_str_beq, val_str_beq]
    have hqw2 : q.warehouse = f0 := by simpa using hqw
    have haw3 : a.warehouse = g0 := by simpa using haw2
    rw [keyMatch, hqw2, haw3]
  rw [hfilter, List.map_map, List.map_eq_map_iff]
  intro a ha
  have ha2 : a ∈ arecs := (List.mem_filter.mp ha).1
  obtain ⟨g0, g1, g2, g3, g4, g5, g6, g7, g8, g9, g10, g11, g12, g13, g14, hg⟩ :=
    exists_fields15 a.fields (ha15 a ha2)
  simp only [Function.comp_apply]
  refine congrArg (fun t => enrichedRowVals q ++ t) ?_
  rw [show (List.range amountNames.length).filter (fun k => k ≠ 15 && k ≠ 0)
      = List.range' 1 14 from by decide]
  simp only [amountRowVals, rightKeepVals, hg]
  rfl

theorem selectColsE_of_idx (df : PDF) (sel : List String) (idxs : List Nat)
    (h : sel.mapM (fun n => findColIdx df n) = some idxs) :
    selectColsE df sel
      = .ok ⟨sel, df.rows.map (fun row => idxs.map (fun i => row.getD i (.str "")))⟩ := by
  unfold selectColsE
  rw [h]

/-- The rename and selection steps on the merged DataFrame: every
selected label resolves (in particular the rename left `Opening Stock`
and `Closing Stock` untouched because they were never suffixed), and
`Unit Price` is selected three times, at index 17. -/
theorem selectColsE_renamed (rows : List (List Val)) :
    selectColsE (renameCols
        ⟨enrichedQtyNames.map (suffixLeft amountNames)
            ++ (((List.range amountNames.length).filter
                  (fun k => k ≠ 15 && k ≠ 0)).map
                (fun k => suffixRight enrichedQtyNames (amountNames.getD k ""))),
         rows⟩ finalRename) finalSelection
      = .ok ⟨finalSelection,
             rows.map (fun row =>
               [15, 1, 17, 18, 5, 17, 22, 10, 17, 27, 14, 31].map
                 (fun i => row.getD i (.str "")))⟩ :=
  selectColsE_of_idx _ _ _ rfl

theorem mem_mergeRecords (e : List EnrichedRecord) (arecs : List MovementRecord)
    (p : EnrichedRecord × MovementRecord) (hp : p ∈ mergeRecords e arecs) :
    p.1 ∈ e ∧ p.2 ∈ arecs := by
  unfold mergeRecords at hp
  rw [List.mem_flatMap] at hp
  obtain ⟨q, hq, hp2⟩ := hp
  rw [List.mem_map] at hp2
  obtain ⟨a, ha, rfl⟩ := hp2
  exact ⟨hq, (List.mem_filter.mp ha).1⟩

/-- C5: the full `merge_dataframes` pipeline on the extracted and
enriched DataFrames yields exactly the fixed final column order (with
`Unit Price` three times) and, per matching record pair, the claimed
field mapping: opening/closing stock and the repeated unit price from
the quantity side, opening/closing balance amounts from the amount side,
purchase figures from `Transfer In`, and sales figures from `Sales`. -/
theorem merge_dataframes_schema_and_mapping (lookup : String → Option ApiResponse)
    (qrecs arecs : List MovementRecord)
    (hq15 : ∀ r ∈ qrecs, r.fields.length = 15)
    (hqw : ∀ r ∈ qrecs, r.warehouse = r.fields.getD 0 "")
    (ha15 : ∀ a ∈ arecs, a.fields.length = 15)
    (haw : ∀ a ∈ arecs, a.warehouse = a.fields.getD 0 "") :
    recordsToDF qtyColumns qrecs
        = .ok ⟨qtyColumns ++ ["Item"],
               qrecs.map (fun r => r.fields.map Val.str ++ [Val.str r.item])⟩ ∧
    addUnitPriceDF lookup
        ⟨qtyColumns ++ ["Item"],
         qrecs.map (fun r => r.fields.map Val.str ++ [Val.str r.item])⟩
        = .ok ⟨enrichedQtyNames,
               (add_unit_price_records lookup qrecs).map enrichedRowVals⟩ ∧
    recordsToDF amountColumns arecs
        = .ok ⟨amountNames, arecs.map amountRowVals⟩ ∧
    merge_dataframes_df
        ⟨enrichedQtyNames, (add_unit_price_records lookup qrecs).map enrichedRowVals⟩
        ⟨amountNames, arecs.map amountRowVals⟩
      = .ok ⟨finalSelection,
             (mergeRecords (add_unit_price_records lookup qrecs) arecs).map
               unifiedRowVals⟩ := by
  have he15 : ∀ x ∈ add_unit_price_records lookup qrecs, x.fields.length = 15 := by
    intro x hx
    rw [add_unit_price_records, List.mem_map] at hx
    obtain ⟨r, hr, rfl⟩ := hx
    exact hq15 r hr
  have hew : ∀ x ∈ add_unit_price_records lookup qrecs,
      x.warehouse = x.fields.getD 0 "" := by
    intro x hx
    rw [add_unit_price_records, List.mem_map] at hx
    obtain ⟨r, hr, rfl⟩ := hx
    exact hqw r hr
  refine ⟨recordsToDF_canonical qtyColumns qrecs (by decide) rfl hq15 hqw,
    addUnitPriceDF_canonical lookup qrecs hq15,
    by rw [recordsToDF_canonical amountColumns arecs (by decide) rfl ha15 haw]; rfl, ?_⟩
  unfold merge_dataframes_df
  rw [mergeColsE_canonical (add_unit_price_records lookup qrecs) arecs
    he15 hew ha15 haw]
  simp only []
  rw [selectColsE_renamed]
  refine congrArg Except.ok (congrArg (PDF.mk finalSelection) ?_)
  rw [List.map_map, List.map_eq_map_iff]
  intro p hp
  obtain ⟨hp1, hp2⟩ := mem_mergeRecords _ _ p hp
  obtain ⟨f0, f1, f2, f3, f4, f5, f6, f7, f8, f9, f10, f11, f12, f13, f14, hf⟩ :=
    exists_fields15 p.1.fields (he15 p.1 hp1)
  obtain ⟨g0, g1, g2, g3, g4, g5, g6, g7, g8, g9, g10, g11, g12, g13, g14, hg⟩ :=
    exists_fields15 p.2.fields (ha15 p.2 hp2)
  simp only [Function.comp_apply, enrichedRowVals, rightKeepVals, unifiedRowVals,
    hf, hg]
  rfl

/-- C5 witness: the pipeline applied to one concrete quantity/amount
record pair with an always-failing lookup. -/
theorem merge_dataframes_schema_and_mapping_witness :
    merge_dataframes_df
        ⟨enrichedQtyNames,
         (add_unit_price_records (fun _ => none) [c5QtyRec]).map enrichedRowVals⟩
        ⟨amountNames, [c5AmtRec].map amountRowVals⟩
      = .ok ⟨finalSelection,
             (mergeRecords (add_unit_price_records (fun _ => none) [c5QtyRec])
                [c5AmtRec]).map unifiedRowVals⟩ :=
  (merge_dataframes_schema_and_mapping (fun _ => none) [c5QtyRec] [c5AmtRec]
    (by decide) (by decide) (by decide) (by decide)).2.2.2

/-! ### Band coloring (claim C6) -/

/-- C6: in every data row (rows 3..max_row), the cells in columns 2–4
carry the OPENING fill, columns 5–7 the PURCHASE fill, columns 8–10 the
SALES fill and columns 11–12 the CLOSING STOCK fill; column 1 and the
columns beyond 12 of a data row are not colored. -/
theorem data_cells_band_colors (df : PDF) (r c : Nat)
    (hr : 3 ≤ r) (hr2 : r ≤ wsMaxRow df) :
    (2 ≤ c ∧ c ≤ 4 → wsFillColor df r c = some (bandColor .opening)) ∧
    (5 ≤ c ∧ c ≤ 7 → wsFillColor df r c = some (bandColor .purchase)) ∧
    (8 ≤ c ∧ c ≤ 10 → wsFillColor df r c = some (bandColor .sales)) ∧
    (11 ≤ c ∧ c ≤ 12 → wsFillColor df r c = some (bandColor .closing)) ∧
    (c = 1 ∨ 13 ≤ c → wsFillColor df r c = none) := by
  unfold wsFillColor wsFillBand
  rw [if_pos (show 2 ≤ r ∧ r ≤ wsMaxRow df from ⟨by omega, hr2⟩)]
  refine ⟨?_, ?_, ?_, ?_, ?_⟩ <;> intro hc <;> split_ifs <;>
    first
    | rfl
    | omega

/-- C6 witness: the concrete one-data-row grid, data row 3, sample
columns of each band plus the uncolored columns 1 and 13. -/
theorem data_cells_band_colors_witness :
    3 ≤ 3 ∧ 3 ≤ wsMaxRow c6DF ∧
    wsFillColor c6DF 3 2 = some (bandColor .opening) ∧
    wsFillColor c6DF 3 7 = some (bandColor .purchase) ∧
    wsFillColor c6DF 3 10 = some (bandColor .sales) ∧
    wsFillColor c6DF 3 12 = some (bandColor .closing) ∧
    wsFillColor c6DF 3 1 = none ∧
    wsFillColor c6DF 3 13 = none :=
  ⟨by decide, by decide,
   (data_cells_band_colors c6DF 3 2 (by decide) (by decide)).1 (by decide),
   (data_cells_band_colors c6DF 3 7 (by decide) (by decide)).2.1 (by decide),
   (data_cells_band_colors c6DF 3 10 (by decide) (by decide)).2.2.1 (by decide),
   (data_cells_band_colors c6DF 3 12 (by decide) (by decide)).2.2.2.1 (by decide),
   (data_cells_band_colors c6DF 3 1 (by decide) (by decide)).2.2.2.2 (Or.inl rfl),
   (data_cells_band_colors c6DF 3 13 (by decide) (by decide)).2.2.2.2 (Or.inr (by decide))⟩

/-! ### Column widths (claim C8) -/

theorem natMaxAssoc (a b c : Nat) :
    Nat.max (Nat.max a b) c = Nat.max a (Nat.max b c) := by
  simp only [Nat.max_def]
  split_ifs <;> omega

theorem natMaxComm (a b : Nat) : Nat.max a b = Nat.max b a := by
  simp only [Nat.max_def]
  split_ifs <;> omega

theorem natMaxEqRight (a b : Nat) (h : a ≤ b) : Nat.max a b = b := by
  simp only [Nat.max_def]
  split_ifs <;> omega

theorem foldl_max_comm (l : List Nat) : ∀ a b : Nat,
    l.foldl Nat.max (Nat.max a b) = Nat.max a (l.foldl Nat.max b) := by
  induction l with
  | nil => intro a b; rfl
  | cons x xs ih =>
    intro a b
    rw [List.foldl_cons, List.foldl_cons, natMaxAssoc]
    exact ih a (Nat.max b x)

theorem maxList_cons (x : Nat) (l : List Nat) :
    maxList (x :: l) = Nat.max x (maxList l) := by
  rw [maxList, List.foldl_cons, natMaxComm 0 x, foldl_max_comm]
  rfl

theorem map_getD_range {α β : Type} (d : α) (f : α → β) (l : List α) :
    (List.range l.length).map (fun i => f (l.getD i d)) = l.map f := by
  induction l with
  | nil => rfl
  | cons x xs ih =>
    rw [List.length_cons, List.range_succ_eq_map, List.map_cons, List.map_map]
    congr 1

/-- C8: for every column of the rendered final report, the assigned
width is the maximum rendered length over that column's header and data
values, plus the fixed padding 2.  The extra row-1 cells the code also
scans (the band labels and the `str(None)` of the A1 cell) never exceed
the header length, because each band label is at most as long as the
field header below its anchor. -/
theorem colWidth_header_and_values (len : Rat → Nat) (df : PDF)
    (hnames : df.names = finalSelection)
    (hrows : ∀ row ∈ df.rows, row.length = 12)
    (c : Nat) (hc1 : 1 ≤ c) (hc2 : c ≤ 12) :
    colWidth len df c
      = Nat.max ((finalSelection.getD (c - 1) "").length)
          (maxList (df.rows.map (fun row =>
            strLenOf len (some (row.getD (c - 1) (Val.str "")))))) + 2 := by
  obtain ⟨ns, rows⟩ := df
  simp only at hnames hrows
  subst hnames
  have hdata : ((List.range' 3 rows.length).filter
        (fun r => !isMergedCell r c)).map
        (fun r => strLenOf len (wsValueAt ⟨finalSelection, rows⟩ r c))
      = rows.map (fun row => strLenOf len (some (row.getD (c - 1) (Val.str "")))) := by
    rw [List.filter_eq_self.mpr (by
      intro r hr
      rw [List.mem_range'_1] at hr
      simp only [isMergedCell]
      have h1 : (r == 1) = false := by
        refine beq_eq_false_iff_ne.mpr ?_
        omega
      rw [h1, Bool.false_and, Bool.not_false])]
    rw [List.range'_eq_map_range, List.map_map,
      ← map_getD_range ([] : List Val)
        (fun row => strLenOf len (some (row.getD (c - 1) (Val.str "")))) rows]
    rw [List.map_eq_map_iff]
    intro i hi
    rw [List.mem_range] at hi
    simp only [Function.comp_apply]
    have hrow : rows.getD i [] ∈ rows := by
      rw [List.getD_eq_getElem rows [] hi]
      exact List.getElem_mem hi
    have hlen12 : (rows.getD i []).length = 12 := hrows _ hrow
    unfold wsValueAt
    rw [if_neg (by omega), if_neg (by omega), if_neg (by omega),
      if_pos (show 3 + i - 3 < rows.length from by omega),
      show (3 + i - 3) = i from by omega,
      if_pos (show c - 1 < (rows.getD i []).length from by omega)]
  have hg2 : strLenOf len (wsValueAt ⟨finalSelection, rows⟩ 2 c)
      = (finalSelection.getD (c - 1) "").length := by
    unfold wsValueAt
    rw [if_neg (by omega), if_neg (by omega), if_pos rfl,
      if_pos (show c - 1 < finalSelection.length from by
        show c - 1 < 12
        omega)]
    rfl
  unfold colWidth wsMaxRow
  rw [show List.range' 1 (rows.length + 2)
      = 1 :: 2 :: List.range' 3 rows.length from rfl]
  by_cases hmc : isMergedCell 1 c = true
  · rw [show (1 :: 2 :: List.range' 3 rows.length).filter
          (fun r => !isMergedCell r c)
        = 2 :: (List.range' 3 rows.length).filter (fun r => !isMergedCell r c)
        from by
          rw [List.filter_cons, List.filter_cons,
            show (!isMergedCell 1 c) = false from by rw [hmc]; rfl,
            show (!isMergedCell 2 c) = true from rfl]
          simp]
    rw [List.map_cons, hdata, maxList_cons, hg2]
  · have hmcf : isMergedCell 1 c = false := by
      cases h : isMergedCell 1 c
      · rfl
      · exact absurd h hmc
    rw [show (1 :: 2 :: List.range' 3 rows.length).filter
          (fun r => !isMergedCell r c)
        = 1 :: 2 :: (List.range' 3 rows.length).filter (fun r => !isMergedCell r c)
        from by
          rw [List.filter_cons, List.filter_cons,
            show (!isMergedCell 1 c) = true from by rw [hmcf]; rfl,
            show (!isMergedCell 2 c) = true from rfl]
          simp]
    have hg1eq : strLenOf len (wsValueAt ⟨finalSelection, rows⟩ 1 c)
        = bandCellLen c := by
      unfold wsValueAt bandCellLen
      rw [if_neg (by omega), if_pos rfl]
      cases bandLabelAt c <;> rfl
    have hg1le : bandCellLen c ≤ (finalSelection.getD (c - 1) "").length := by
      interval_cases c <;> first | exact absurd rfl hmc | decide
    rw [List.map_cons, List.map_cons, hdata, maxList_cons, maxList_cons, hg2, hg1eq]
    rw [natMaxEqRight _ _ (le_trans hg1le (Nat.le_max_left _ _))]

/-- C8 witness: the concrete one-data-row grid, column 2, with a fixed
numeric rendering length. -/
theorem colWidth_header_and_values_witness :
    c6DF.names = finalSelection ∧ (∀ row ∈ c6DF.rows, row.length = 12) ∧
    colWidth (fun _ => 3) c6DF 2
      = Nat.max ((finalSelection.getD (2 - 1) "").length)
          (maxList (c6DF.rows.map (fun row =>
            strLenOf (fun _ => 3) (some (row.getD (2 - 1) (Val.str "")))))) + 2 :=
  ⟨rfl, by decide,
   colWidth_header_and_values (fun _ => 3) c6DF rfl (by decide) 2 (by decide)
     (by decide)⟩

/-! ### Validation order (claim C7) -/

/-- C7: when the quantity document lacks the substring
`"Opening Stock"`, or the amount document lacks `"Opening balance"`, the
run terminates with the corresponding user-facing validation error, and
it does so before any table row is parsed: the outcome is the same
whatever the documents' table rows are, so no report is produced. -/
theorem validation_fails_before_parsing (lookup : String → Option ApiResponse)
    (qdoc adoc : HtmlDoc)
    (h : containsSubstring (docText qdoc) "Opening Stock" = false
       ∨ containsSubstring (docText adoc) "Opening balance" = false) :
    ∃ err, (err = RunError.qtyValidation ∨ err = RunError.amtValidation) ∧
      ∀ (rows1 rows2 : List Row),
        runPipeline lookup ⟨qdoc.textFragments, rows1⟩ ⟨adoc.textFragments, rows2⟩
          = .error err := by
  by_cases hq : containsSubstring (docText qdoc) "Opening Stock" = false
  · refine ⟨.qtyValidation, Or.inl rfl, ?_⟩
    intro rows1 rows2
    have hval : validate_file_content ⟨qdoc.textFragments, rows1⟩ ["Opening Stock"]
        = false := by
      unfold validate_file_content docText
      simp only [List.all_cons, List.all_nil, Bool.and_true]
      exact hq
    unfold runPipeline
    rw [if_pos (by rw [hval]; rfl)]
  · have hq2 : containsSubstring (docText qdoc) "Opening Stock" = true := by
      cases hcb : containsSubstring (docText qdoc) "Opening Stock"
      · exact absurd hcb hq
      · rfl
    rcases h with h1 | h2
    · exact absurd h1 hq
    refine ⟨.amtValidation, Or.inr rfl, ?_⟩
    intro rows1 rows2
    have hvalq : validate_file_content ⟨qdoc.textFragments, rows1⟩ ["Opening Stock"]
        = true := by
      unfold validate_file_content docText
      simp only [List.all_cons, List.all_nil, Bool.and_true]
      exact hq2
    have hvala : validate_file_content ⟨adoc.textFragments, rows2⟩ ["Opening balance"]
        = false := by
      unfold validate_file_content docText
      simp only [List.all_cons, List.all_nil, Bool.and_true]
      exact h2
    unfold runPipeline
    rw [if_neg (by rw [hvalq]; simp), if_pos (by rw [hvala]; rfl)]

/-- C7 witness: a concrete quantity document lacking `"Opening Stock"`
and an amount document containing its marker. -/
theorem validation_fails_before_parsing_witness :
    containsSubstring (docText badQtyDoc) "Opening Stock" = false ∧
    (∃ err, (err = RunError.qtyValidation ∨ err = RunError.amtValidation) ∧
      ∀ (rows1 rows2 : List Row),
        runPipeline (fun _ => none)
            ⟨badQtyDoc.textFragments, rows1⟩ ⟨goodAmtDoc.textFragments, rows2⟩
          = .error err) :=
  ⟨by decide,
   validation_fails_before_parsing (fun _ => none) badQtyDoc goodAmtDoc
     (Or.inl (by decide))⟩

end InvReport

